import Mathlib

/-!
Verification of the BacPipes edge gateway worker against its specification.

The definitions below are a shallow embedding of the Python source under
src/bacpipes (models/point.py, worker/write_handler.py, worker/polling.py,
worker/bacnet_client.py, worker/mqtt_client.py).  Machine floats of the
source are modelled as rationals, Python dictionaries as association lists,
database tables as lists of rows, and the network as explicit oracles.
-/

namespace BacPipes

/-- JSON-decoded Python value as produced by json.loads and carried through
the write pipeline: a number (int or float, modelled as one rational case),
a string, a boolean, or None/null. -/
inductive JValue where
  | num (q : ℚ)
  | str (s : String)
  | jbool (b : Bool)
  | null
deriving DecidableEq, Repr

/-- Checks that a list starts with the given pattern of characters. -/
def startsWithChars : List Char → List Char → Bool
  | [], _ => true
  | _ :: _, [] => false
  | c :: cs, d :: ds => c = d && startsWithChars cs ds

/-- Substring containment on character lists, matching the Python operator
`needle in hay` for str operands. -/
def hasSubChars (needle : List Char) : List Char → Bool
  | [] => startsWithChars needle []
  | d :: ds => startsWithChars needle (d :: ds) || hasSubChars needle ds

/-- Substring containment on strings, matching Python `needle in hay`. -/
def hasSub (needle hay : String) : Bool :=
  hasSubChars needle.data hay.data

/-- Truthiness of an optional string, matching Python where both None and
the empty string are falsy. -/
def optStrTruthy : Option String → Bool
  | none => false
  | some s => s ≠ ""

theorem optStrTruthy_none : optStrTruthy none = false := rfl

theorem optStrTruthy_some (s : String) : optStrTruthy (some s) = decide (s ≠ "") := rfl

/-- Python truncation toward zero, the behaviour of int() on a float. -/
def pyTrunc (q : ℚ) : ℤ :=
  Int.tdiv q.num q.den

/-- Computable floor of a rational (math.floor). -/
def ratFloor (q : ℚ) : ℤ :=
  q.num / q.den

/-- Computable ceiling of a rational (math.ceil). -/
def ratCeil (q : ℚ) : ℤ :=
  -ratFloor (-q)

/-- Device row of the config store (models/device.py): database id, BACnet
device instance, address and enabled flag.  Timestamps are elided. -/
structure Device where
  id : ℤ
  deviceId : ℤ
  deviceName : String
  ipAddress : String
  port : ℤ
  enabled : Bool
deriving DecidableEq, Repr

/-- Point row of the config store (models/point.py).  Timestamps and the
mutable operational columns not read by the worker paths under proof are
elided; floats become rationals. -/
structure Point where
  id : ℤ
  deviceId : ℤ
  objectType : String
  objectInstance : ℤ
  pointName : String
  description : Option String
  units : Option String
  siteId : Option String
  equipmentType : Option String
  equipmentId : Option String
  pointFunction : Option String
  quantity : Option String
  subject : Option String
  location : Option String
  qualifier : Option String
  haystackPointName : Option String
  dis : Option String
  enabled : Bool
  mqttPublish : Bool
  mqttTopic : Option String
  pollInterval : ℤ
  qos : ℤ
  isReadable : Bool
  isWritable : Bool
  minPresValue : Option ℚ
  maxPresValue : Option ℚ
deriving DecidableEq, Repr

/-- Translation of Point.generate_haystack_name: the eight tag fields in
order, falsy entries filtered out, joined with dots; None when every tag
is empty. -/
def Point.generate_haystack_name (p : Point) : Option String :=
  let parts := [p.siteId, p.equipmentType, p.equipmentId, p.pointFunction,
                p.quantity, p.subject, p.location, p.qualifier]
  let valid_parts := (parts.filterMap (fun o => o)).filter (fun s => s ≠ "")
  if valid_parts ≠ [] then
    some (String.intercalate "." valid_parts)
  else
    none

/-- Replacement of every dot by a slash, the effect of the source call
str.replace with a single-character pattern. -/
def dotsToSlashes (s : String) : String :=
  ⟨s.data.map (fun c => if c = '.' then '/' else c)⟩

/-- Translation of Point.generate_mqtt_topic: dots of the haystack name
replaced with slashes and the object instance appended; None when no
haystack name is derivable. -/
def Point.generate_mqtt_topic (p : Point) : Option String :=
  match p.generate_haystack_name with
  | some name => some (dotsToSlashes name ++ "/" ++ toString p.objectInstance)
  | none => none

/-- A point fixture with an empty siteId but a non-empty equipmentType,
used to refute the siteId claim. -/
def noSitePoint : Point :=
  { id := 1, deviceId := 1, objectType := "analog-input", objectInstance := 5,
    pointName := "AI5", description := none, units := none,
    siteId := none, equipmentType := some "ahu", equipmentId := none,
    pointFunction := none, quantity := none, subject := none,
    location := none, qualifier := none,
    haystackPointName := none, dis := none,
    enabled := true, mqttPublish := true, mqttTopic := none,
    pollInterval := 60, qos := 1, isReadable := true, isWritable := false,
    minPresValue := none, maxPresValue := none }

/-- C7 counterexample: a Point whose siteId is empty but whose
equipmentType is "ahu" still derives the topic "ahu/5", so an empty siteId
alone does not make the topic underivable. -/
theorem C7_counterexample :
    noSitePoint.siteId = none ∧
    noSitePoint.generate_mqtt_topic = some "ahu/5" := by
  constructor
  · rfl
  · decide

/-- Helper: an if-then-else between a some and a none is none exactly when
the condition fails. -/
theorem ite_some_none_iff {α : Type} (c : Prop) [Decidable c] (a : α) :
    (if c then some a else none) = none ↔ ¬ c := by
  split <;> simp_all

/-- Helper: the filtered tag list is empty exactly when every entry of the
option list is falsy. -/
theorem filter_tags_eq_nil_iff (l : List (Option String)) :
    ((l.filterMap (fun o => o)).filter (fun s => s ≠ "") = []) ↔
      ∀ o ∈ l, optStrTruthy o = false := by
  constructor
  · intro h o ho
    cases o with
    | none => rfl
    | some s =>
      by_cases hs : s = ""
      · simp [optStrTruthy_some, hs]
      · exfalso
        have hm : s ∈ (l.filterMap (fun o => o)).filter (fun s => s ≠ "") := by
          rw [List.mem_filter]
          exact ⟨List.mem_filterMap.mpr ⟨some s, ho, rfl⟩, by simp [hs]⟩
        rw [h] at hm
        exact List.not_mem_nil _ hm
  · intro h
    rw [List.eq_nil_iff_forall_not_mem]
    intro a ha
    rw [List.mem_filter] at ha
    obtain ⟨hmem, hpred⟩ := ha
    obtain ⟨o, ho, hoa⟩ := List.mem_filterMap.mp hmem
    subst hoa
    have hfalse := h _ ho
    rw [optStrTruthy_some] at hfalse
    simp at hfalse hpred
    exact hpred hfalse

/-- C7 amended: generate_mqtt_topic yields nothing exactly when all eight
semantic tag fields are empty (None or the empty string); any single
non-empty tag, siteId or not, makes the topic derivable. -/
theorem C7_no_topic_iff_all_tags_empty (p : Point) :
    p.generate_mqtt_topic = none ↔
      (optStrTruthy p.siteId = false ∧ optStrTruthy p.equipmentType = false ∧
       optStrTruthy p.equipmentId = false ∧ optStrTruthy p.pointFunction = false ∧
       optStrTruthy p.quantity = false ∧ optStrTruthy p.subject = false ∧
       optStrTruthy p.location = false ∧ optStrTruthy p.qualifier = false) := by
  have htop : p.generate_mqtt_topic = none ↔ p.generate_haystack_name = none := by
    unfold Point.generate_mqtt_topic
    cases p.generate_haystack_name <;> simp
  have key : p.generate_haystack_name = none ↔
      ((([p.siteId, p.equipmentType, p.equipmentId, p.pointFunction,
          p.quantity, p.subject, p.location, p.qualifier].filterMap (fun o => o)).filter
            (fun s => s ≠ "")) = []) := by
    simp only [Point.generate_haystack_name]
    rw [ite_some_none_iff, not_not]
  rw [htop, key, filter_tags_eq_nil_iff]
  simp

/-- C7 witness: at the all-empty point the amended theorem evaluates to no
derivable topic. -/
theorem C7_witness :
    ({ noSitePoint with equipmentType := none } : Point).generate_mqtt_topic = none :=
  (C7_no_topic_iff_all_tags_empty _).mpr (by decide)

/-- Splitting of a character list on a separator, matching Python
str.split with a one-character separator (empty segments kept). -/
def splitChars (sep : Char) : List Char → List (List Char)
  | [] => [[]]
  | d :: ds =>
    match splitChars sep ds with
    | [] => [[d]]
    | h :: t => if d = sep then [] :: h :: t else (d :: h) :: t

/-- Python str.split with a one-character separator. -/
def pySplit (sep : Char) (s : String) : List String :=
  (splitChars sep s.data).map (fun cs => ⟨cs⟩)

/-- Whitespace stripping from both ends, matching Python str.strip with no
argument. -/
def trimChars (cs : List Char) : List Char :=
  ((cs.dropWhile Char.isWhitespace).reverse.dropWhile Char.isWhitespace).reverse

/-- Python str.strip on a string. -/
def pyStrip (s : String) : String :=
  ⟨trimChars s.data⟩

/-- Numeric value of a digit list, most significant first. -/
def natOfDigits (cs : List Char) : ℕ :=
  cs.foldl (fun a c => a * 10 + (c.toNat - 48)) 0

/-- Model of Python float(str) on the decimal forms the gateway receives:
optional surrounding whitespace, optional sign, digits with at most one
dot and at least one digit.  Exponent, infinity and nan spellings are not
modelled; no claim depends on them. -/
def pyParseFloat (s : String) : Option ℚ :=
  let t := trimChars s.data
  let signed : ℚ × List Char :=
    match t with
    | '-' :: r => (-1, r)
    | '+' :: r => (1, r)
    | r => (1, r)
  let sign := signed.1
  let body := signed.2
  match splitChars '.' body with
  | [ip] =>
    if ip ≠ [] ∧ ip.all Char.isDigit then some (sign * natOfDigits ip) else none
  | [ip, fp] =>
    if (ip ≠ [] ∨ fp ≠ []) ∧ ip.all Char.isDigit ∧ fp.all Char.isDigit then
      some (sign * ((natOfDigits ip : ℚ) + natOfDigits fp / 10 ^ fp.length))
    else none
  | _ => none

/-- Model of Python int(str): optional whitespace, optional sign, digits
only. -/
def pyParseInt (s : String) : Option ℤ :=
  let t := trimChars s.data
  let signed : ℤ × List Char :=
    match t with
    | '-' :: r => (-1, r)
    | '+' :: r => (1, r)
    | r => (1, r)
  if signed.2 ≠ [] ∧ signed.2.all Char.isDigit then
    some (signed.1 * natOfDigits signed.2)
  else none

/-- Model of Python float(value) on a JSON-decoded value: numbers pass
through, booleans coerce to 0/1, numeric strings parse, None raises (the
None result). -/
def pyFloat : JValue → Option ℚ
  | .num q => some q
  | .jbool b => some (if b then 1 else 0)
  | .str s => pyParseFloat s
  | .null => none

/-- Model of Python int(value): floats truncate toward zero, booleans
coerce, integer-literal strings parse, None raises. -/
def pyInt : JValue → Option ℤ
  | .num q => some (pyTrunc q)
  | .jbool b => some (if b then 1 else 0)
  | .str s => pyParseInt s
  | .null => none

/-- Python truthiness of a JSON-decoded value. -/
def pyTruthy : JValue → Bool
  | .num q => q ≠ 0
  | .str s => s ≠ ""
  | .jbool b => b
  | .null => false

/-- Digit character for a value below ten. -/
def digitChar (n : ℕ) : Char :=
  Char.ofNat (48 + n)

/-- Decimal digits of a natural number, most significant first, with an
explicit fuel argument for structural recursion. -/
def natCharsAux : ℕ → ℕ → List Char
  | 0, _ => []
  | fuel + 1, n =>
    if n < 10 then [digitChar n]
    else natCharsAux fuel (n / 10) ++ [digitChar (n % 10)]

/-- Decimal digits of a natural number. -/
def natChars (n : ℕ) : List Char :=
  natCharsAux (n + 1) n

/-- Rendering of a rational.  It stands for the Python decimal rendering
str(float); both draw only on digits, the minus sign and one punctuation
separator, which is all the no-leakage property depends on. -/
def ratChars (q : ℚ) : List Char :=
  (if q < 0 then ['-'] else []) ++ natChars q.num.natAbs ++
    (if q.den = 1 then [] else '/' :: natChars q.den)

/-- Model of Python str(value) for JSON-decoded values. -/
def pyStr : JValue → String
  | .num q => ⟨ratChars q⟩
  | .str s => s
  | .jbool b => if b then "True" else "False"
  | .null => "None"

/-- Validation error codes of the write pipeline (worker/write_handler.py).
INVALID_HAYSTACK_FORMAT appears in the repository only in the legacy worker
copy src/worker/mqtt_publisher.py; the handler under proof never emits it. -/
inductive ECode where
  | MISSING_FIELDS
  | POINT_NOT_FOUND
  | INVALID_POINT_FUNCTION
  | INVALID_HAYSTACK_FORMAT
  | POINT_NOT_WRITABLE
  | INVALID_PRIORITY
  | VALUE_BELOW_MINIMUM
  | VALUE_ABOVE_MAXIMUM
  | INVALID_VALUE_TYPE
deriving DecidableEq, Repr

/-- One entry of the validationErrors list (message strings elided). -/
structure VErr where
  field : String
  code : ECode
deriving DecidableEq, Repr

/-- Write command as decoded from the write-command topic payload, after
the .get calls of execute_command (priority defaulted to 8, release to
False by those calls). -/
structure Command where
  jobId : String
  deviceId : Option ℤ
  objectType : Option String
  objectInstance : Option ℤ
  value : JValue
  priority : ℤ
  release : Bool
deriving DecidableEq, Repr

/-- A BACnet WriteProperty request as handed to the engine. -/
structure WriteReq where
  deviceIp : String
  devicePort : ℤ
  objectType : String
  objectInstance : ℤ
  value : JValue
  priority : ℤ
deriving DecidableEq, Repr

/-- WriteHistory row (models/write_history.py) as recorded by the
handler. -/
structure WriteHistoryRow where
  pointId : ℤ
  value : Option String
  priority : ℤ
  release : Bool
  success : Bool
  errorMessage : Option String
deriving DecidableEq, Repr

/-- Result envelope published to the write-result topic. -/
structure ResultEnv where
  jobId : String
  success : Bool
  error : Option String
  deviceId : Option ℤ
  pointName : Option String
  haystackName : Option String
  value : Option JValue
  priority : Option ℤ
  release : Option Bool
  validationErrors : List VErr
deriving DecidableEq, Repr

/-- Translation of WriteHandler._create_error_result. -/
def create_error_result (job_id : String) (validation_errors : List VErr)
    (device_id : Option ℤ) (point_name : Option String) : ResultEnv :=
  { jobId := job_id, success := false, error := some "Validation failed",
    deviceId := device_id, pointName := point_name, haystackName := none,
    value := none, priority := none, release := none,
    validationErrors := validation_errors }

/-- Translation of BACnetClient.write_property: encoding per object type
(Unsigned via int for multi-state, Unsigned 0/1 via truthiness for binary,
Real via float otherwise), then the confirmed request whose round-trip
outcome is the netOk oracle.  Failures become (False, message). -/
def write_property (object_type : String) (value : JValue) (netOk : Bool) :
    Bool × Option String :=
  let encoded : Bool :=
    if hasSub "multi-state" object_type then (pyInt value).isSome
    else if hasSub "binary" object_type then true
    else (pyFloat value).isSome
  if encoded then
    if netOk then (true, none) else (false, some "BACnet write request timeout")
  else
    (false, some "BACnet write failed: conversion error")

/-- Database lookup of execute_command: the first Point joined with its
Device matching the command coordinates. -/
def lookupPoint (db : List (Point × Device)) (device_id : ℤ) (object_type : String)
    (object_instance : ℤ) : Option (Point × Device) :=
  db.find? (fun pd =>
    decide (pd.1.deviceId = pd.2.id ∧ pd.2.deviceId = device_id ∧
            pd.1.objectType = object_type ∧ pd.1.objectInstance = object_instance))

/-- Haystack position-4 validation of execute_command: only a truthy
haystack name with at least 4 dotted parts whose 4th part is not sp draws
an error. -/
def verr_haystack (point : Point) : List VErr :=
  match point.haystackPointName with
  | some hn =>
    if hn ≠ "" then
      let parts := pySplit '.' hn
      if parts.length ≥ 4 ∧ parts.getD 3 "" ≠ "sp" then
        [⟨"haystackName", .INVALID_POINT_FUNCTION⟩]
      else []
    else []
  | none => []

/-- isWritable validation of execute_command. -/
def verr_writable (point : Point) : List VErr :=
  if point.isWritable then [] else [⟨"isWritable", .POINT_NOT_WRITABLE⟩]

/-- Priority-range validation of execute_command. -/
def verr_priority (command : Command) : List VErr :=
  if 1 ≤ command.priority ∧ command.priority ≤ 16 then []
  else [⟨"priority", .INVALID_PRIORITY⟩]

/-- Value-range validation of execute_command: only for non-release
commands with a non-None value; float conversion failure is a type
error. -/
def verr_range (point : Point) (command : Command) : List VErr :=
  if command.release = false ∧ command.value ≠ JValue.null then
    match pyFloat command.value with
    | some v =>
      (match point.minPresValue with
       | some lo => if v < lo then [⟨"value", .VALUE_BELOW_MINIMUM⟩] else []
       | none => []) ++
      (match point.maxPresValue with
       | some hi => if hi < v then [⟨"value", .VALUE_ABOVE_MAXIMUM⟩] else []
       | none => [])
    | none => [⟨"value", .INVALID_VALUE_TYPE⟩]
  else []

/-- The validation-error list accumulated by execute_command for a resolved
point, in source order: haystack position-4, isWritable, priority range,
value range. -/
def validation_errors_of (point : Point) (command : Command) : List VErr :=
  verr_haystack point ++ verr_writable point ++ verr_priority command ++
    verr_range point command

/-- Outcome of one execute_command call: the BACnet write issued (if any),
the WriteHistory rows recorded, the result envelope returned for MQTT
publishing, and the resolved database row (recorded for specification
purposes). -/
structure ExecResult where
  writeIssued : Option WriteReq
  history : List WriteHistoryRow
  result : ResultEnv
  resolved : Option (Point × Device)
deriving DecidableEq, Repr

/-- Tail of execute_command once the point is resolved: validate, then
write, record history and build the success/failure envelope. -/
def execute_resolved (job_id : String) (device_id : ℤ) (object_type : String)
    (object_instance : ℤ) (command : Command) (point : Point) (device : Device)
    (netOk : Bool) : ExecResult :=
  let verrs := validation_errors_of point command
  if verrs ≠ [] then
    { writeIssued := none, history := [],
      result := create_error_result job_id verrs (some device_id) (some point.pointName),
      resolved := some (point, device) }
  else
    let outcome := write_property object_type command.value netOk
    let success := outcome.1
    let error_msg := outcome.2
    { writeIssued := some { deviceIp := device.ipAddress, devicePort := device.port,
                            objectType := object_type, objectInstance := object_instance,
                            value := command.value, priority := command.priority },
      history := [{ pointId := point.id,
                    value := (match command.value with
                              | JValue.null => none
                              | v => some (pyStr v)),
                    priority := command.priority, release := command.release,
                    success := success, errorMessage := error_msg }],
      result := { jobId := job_id, success := success, error := error_msg,
                  deviceId := some device_id, pointName := some point.pointName,
                  haystackName := point.haystackPointName,
                  value := some command.value, priority := some command.priority,
                  release := some command.release, validationErrors := [] },
      resolved := some (point, device) }

/-- Required-field check of execute_command, with Python truthiness: a
missing or zero deviceId, a missing or empty objectType, or a missing
objectInstance. -/
def missing_fields (command : Command) : Bool :=
  (match command.deviceId with | none => true | some d => decide (d = 0)) ||
  (match command.objectType with | none => true | some s => decide (s = "")) ||
  decide (command.objectInstance = none)

/-- Translation of WriteHandler.execute_command: required-field check with
Python truthiness, database lookup, then the resolved tail. -/
def execute_command (db : List (Point × Device)) (command : Command)
    (netOk : Bool) : ExecResult :=
  let job_id := command.jobId
  if missing_fields command then
    { writeIssued := none, history := [],
      result := create_error_result job_id [⟨"required", .MISSING_FIELDS⟩] none none,
      resolved := none }
  else
    let device_id := command.deviceId.getD 0
    let object_type := command.objectType.getD ""
    let object_instance := command.objectInstance.getD 0
    match lookupPoint db device_id object_type object_instance with
    | none =>
      { writeIssued := none, history := [],
        result := create_error_result job_id [⟨"point", .POINT_NOT_FOUND⟩] none none,
        resolved := none }
    | some (point, device) =>
      execute_resolved job_id device_id object_type object_instance command point device netOk

/-- A resolved execution that issues a write has an empty validation-error
list. -/
theorem execute_resolved_verrs_nil (job_id : String) (device_id : ℤ)
    (object_type : String) (object_instance : ℤ) (command : Command)
    (point : Point) (device : Device) (netOk : Bool) (w : WriteReq)
    (hw : (execute_resolved job_id device_id object_type object_instance
            command point device netOk).writeIssued = some w) :
    validation_errors_of point command = [] := by
  by_cases hnil : validation_errors_of point command = []
  · exact hnil
  · exfalso
    simp only [execute_resolved] at hw
    rw [if_pos hnil] at hw
    exact Option.noConfusion hw

/-- A resolved execution records the row it was given. -/
theorem execute_resolved_resolved_eq (job_id : String) (device_id : ℤ)
    (object_type : String) (object_instance : ℤ) (command : Command)
    (point : Point) (device : Device) (netOk : Bool) :
    (execute_resolved job_id device_id object_type object_instance
      command point device netOk).resolved = some (point, device) := by
  simp only [execute_resolved]
  split <;> rfl

/-- A command execution that issues a write resolved a point whose
validation-error list is empty. -/
theorem execute_command_write_verrs_nil (db : List (Point × Device))
    (command : Command) (netOk : Bool) (w : WriteReq) (point : Point)
    (device : Device)
    (hw : (execute_command db command netOk).writeIssued = some w)
    (hres : (execute_command db command netOk).resolved = some (point, device)) :
    validation_errors_of point command = [] := by
  simp only [execute_command] at hw hres
  by_cases hmiss : missing_fields command
  · rw [if_pos hmiss] at hw
    exact absurd hw (by simp)
  · rw [if_neg hmiss] at hw hres
    cases hlk : lookupPoint db (command.deviceId.getD 0) (command.objectType.getD "")
        (command.objectInstance.getD 0) with
    | none =>
      rw [hlk] at hw
      exact absurd hw (by simp)
    | some pd =>
      obtain ⟨p0, d0⟩ := pd
      rw [hlk] at hw hres
      rw [execute_resolved_resolved_eq] at hres
      obtain ⟨h1, h2⟩ := Prod.mk.injEq .. ▸ Option.some.inj hres
      subst h1; subst h2
      exact execute_resolved_verrs_nil _ _ _ _ _ _ _ _ _ hw

/-- An empty validation-error list means each of the four checks passed. -/
theorem validation_nil_split (point : Point) (command : Command)
    (h : validation_errors_of point command = []) :
    verr_haystack point = [] ∧ verr_writable point = [] ∧
      verr_priority command = [] ∧ verr_range point command = [] := by
  unfold validation_errors_of at h
  simpa [List.append_eq_nil] using h

/-- A passed isWritable check means the point is writable. -/
theorem verr_writable_nil (point : Point) (h : verr_writable point = []) :
    point.isWritable = true := by
  by_cases hw : point.isWritable
  · exact hw
  · rw [verr_writable, if_neg hw] at h
    exact absurd h (by simp)

/-- A passed range check bounds a numeric non-release value on both
sides. -/
theorem verr_range_bounds (point : Point) (command : Command) (v : ℚ)
    (hrel : command.release = false) (hv : pyFloat command.value = some v)
    (h : verr_range point command = []) :
    (∀ lo, point.minPresValue = some lo → lo ≤ v) ∧
      (∀ hi, point.maxPresValue = some hi → v ≤ hi) := by
  have hnn : command.value ≠ JValue.null := by
    intro hnull
    rw [hnull] at hv
    exact Option.noConfusion hv
  rw [verr_range, if_pos ⟨hrel, hnn⟩, hv] at h
  rw [List.append_eq_nil] at h
  obtain ⟨hmin, hmax⟩ := h
  constructor
  · intro lo hlo
    by_cases hvl : v < lo
    · exfalso
      rw [hlo] at hmin
      simp [hvl] at hmin
    · exact le_of_not_lt hvl
  · intro hi hhi
    by_cases hvh : hi < v
    · exfalso
      rw [hhi] at hmax
      simp [hvh] at hmax
    · exact le_of_not_lt hvh

/-- A passed haystack check forces position 4 to sp whenever the truthy
haystack name has at least four dotted parts. -/
theorem verr_haystack_sp (point : Point) (h : verr_haystack point = []) :
    ∀ hn, point.haystackPointName = some hn → hn ≠ "" →
      (pySplit '.' hn).length ≥ 4 → (pySplit '.' hn).getD 3 "" = "sp" := by
  intro hn hhn hne hlen
  simp only [verr_haystack, hhn] at h
  rw [if_pos hne] at h
  by_cases hsp : (pySplit '.' hn).getD 3 "" = "sp"
  · exact hsp
  · rw [if_pos ⟨hlen, hsp⟩] at h
    exact absurd h (by simp)

/-- Row dictionary produced by PollingWorker.get_enabled_points.  Note the
absence of minPresValue and maxPresValue: the override path cannot see the
bounds at all. -/
structure PointInfo where
  id : ℤ
  objectType : String
  objectInstance : ℤ
  pointName : String
  dis : Option String
  units : Option String
  mqttTopic : Option String
  pollInterval : ℤ
  qos : ℤ
  haystackPointName : Option String
  isWritable : Bool
  deviceId : ℤ
  deviceIp : String
  devicePort : ℤ
deriving DecidableEq, Repr

/-- The dictionary built for one joined row in get_enabled_points. -/
def point_info (p : Point) (d : Device) : PointInfo :=
  { id := p.id, objectType := p.objectType, objectInstance := p.objectInstance,
    pointName := p.pointName, dis := p.dis, units := p.units,
    mqttTopic := p.mqttTopic, pollInterval := p.pollInterval, qos := p.qos,
    haystackPointName := p.haystackPointName, isWritable := p.isWritable,
    deviceId := d.deviceId, deviceIp := d.ipAddress, devicePort := d.port }

/-- Selection predicate of get_enabled_points: the join condition plus
mqttPublish, point enabled and device enabled all true.  This is the
pollable set. -/
def pollable (pd : Point × Device) : Bool :=
  decide (pd.1.deviceId = pd.2.id) && pd.1.mqttPublish && pd.1.enabled &&
    pd.2.enabled

/-- Translation of PollingWorker.get_enabled_points. -/
def get_enabled_points (db : List (Point × Device)) : List PointInfo :=
  (db.filter pollable).map (fun pd => point_info pd.1 pd.2)

/-- Translation of PollingWorker.build_topic_to_point_map: one entry per
enabled point having a truthy mqttTopic, keyed by the fixed prefix
override/ plus the topic. -/
def build_topic_to_point_map (db : List (Point × Device)) :
    List (String × PointInfo) :=
  (get_enabled_points db).filterMap (fun point =>
    match point.mqttTopic with
    | some t => if t ≠ "" then some ("override/" ++ t, point) else none
    | none => none)

/-- Python dict lookup over insertion-ordered entries: the last write for a
key wins. -/
def dictGet (m : List (String × PointInfo)) (k : String) : Option PointInfo :=
  List.lookup k m.reverse

/-- Result of json.loads on an override payload, abstracting the Python
stdlib parser: a JSON object (only its value and priority members matter to
the handler), or a bare JSON scalar (number, quoted string, true/false or
null), or a decode error for payloads that are not valid JSON. -/
inductive PyJson where
  | jdict (value : Option JValue) (priority : Option ℤ)
  | jscalar (v : JValue)
deriving DecidableEq, Repr

/-- An override queued for asynchronous processing by
_queue_override_write. -/
structure PendingOverride where
  point : PointInfo
  value : JValue
  priority : ℤ
deriving DecidableEq, Repr

/-- Outcome of one _handle_override_message call.  raisedAttributeError is
the AttributeError thrown by data.get on a non-dict json.loads result; it
escapes _handle_override_message (whose except clause catches only
JSONDecodeError) and is swallowed by the catch-all in handle_mqtt_message,
so the message is dropped. -/
inductive OvOutcome where
  | queued (o : PendingOverride)
  | dropNoPoint
  | dropNotWritable
  | dropNoValue
  | raisedAttributeError
  | dropEmptyRaw
deriving DecidableEq, Repr

/-- Translation of PollingWorker._handle_override_message.  parsed is the
json.loads outcome on the payload bytes and raw their decoded text (used by
the fallback path reached only on a JSONDecodeError). -/
def handle_override_message (topic_to_point : List (String × PointInfo))
    (topic : String) (parsed : Option PyJson) (raw : String) : OvOutcome :=
  match dictGet topic_to_point topic with
  | none => .dropNoPoint
  | some point =>
    if ¬ point.isWritable then .dropNotWritable
    else
      match parsed with
      | some (.jdict value priority) =>
        match value with
        | none => .dropNoValue
        | some JValue.null => .dropNoValue
        | some v => .queued ⟨point, v, priority.getD 8⟩
      | some (.jscalar _) => .raisedAttributeError
      | none =>
        if pyStrip raw ≠ "" then .queued ⟨point, .str (pyStrip raw), 8⟩
        else .dropEmptyRaw

/-- One processed override write: the request handed to the BACnet engine
together with its outcome. -/
structure IssuedOverrideWrite where
  req : WriteReq
  success : Bool
  errorMessage : Option String
deriving DecidableEq, Repr

/-- Outputs of PollingWorker.process_pending_overrides over a drained
queue: the BACnet writes issued (every queued override is written,
unconditionally) and the point-value database updates on success.  The
history field records the WriteHistory rows this path inserts; the source
inserts none. -/
structure OverrideRunResult where
  writes : List IssuedOverrideWrite
  history : List WriteHistoryRow
  dbUpdates : List (ℤ × String)
deriving DecidableEq, Repr

/-- Translation of PollingWorker.process_pending_overrides. -/
def process_pending_overrides (pending : List PendingOverride) (netOk : Bool) :
    OverrideRunResult :=
  { writes := pending.map (fun o =>
      let outcome := write_property o.point.objectType o.value netOk
      { req := { deviceIp := o.point.deviceIp, devicePort := o.point.devicePort,
                 objectType := o.point.objectType,
                 objectInstance := o.point.objectInstance,
                 value := o.value, priority := o.priority },
        success := outcome.1, errorMessage := outcome.2 }),
    history := [],
    dbUpdates := pending.filterMap (fun o =>
      let outcome := write_property o.point.objectType o.value netOk
      if outcome.1 then some (o.point.id, pyStr o.value) else none) }

/-- A lookup over entries none of which carries the key yields nothing. -/
theorem lookup_eq_none_of_keys (l : List (String × PointInfo)) (k : String)
    (h : ∀ e ∈ l, e.1 ≠ k) : List.lookup k l = none := by
  induction l with
  | nil => rfl
  | cons e t ih =>
    obtain ⟨ek, ev⟩ := e
    have hne : (k == ek) = false := by
      have := h (ek, ev) (List.mem_cons_self _ _)
      simp only [ne_eq] at this
      exact beq_eq_false_iff_ne.mpr (fun hk => this hk.symm)
    rw [List.lookup, hne]
    exact ih (fun e he => h e (List.mem_cons_of_mem _ he))

/-- dictGet misses every key absent from the entry list. -/
theorem dictGet_eq_none (m : List (String × PointInfo)) (k : String)
    (h : ∀ e ∈ m, e.1 ≠ k) : dictGet m k = none := by
  unfold dictGet
  exact lookup_eq_none_of_keys _ _ (fun e he => h e (List.mem_reverse.mp he))

/-- Characterization of the override topic map: every entry stems from a
pollable row with a truthy topic, keyed by the override prefix. -/
theorem mem_topic_map (db : List (Point × Device)) (e : String × PointInfo)
    (he : e ∈ build_topic_to_point_map db) :
    ∃ pd, pd ∈ db ∧ pollable pd = true ∧ e.2 = point_info pd.1 pd.2 ∧
      ∃ tp, pd.1.mqttTopic = some tp ∧ tp ≠ "" ∧ e.1 = "override/" ++ tp := by
  unfold build_topic_to_point_map at he
  obtain ⟨pi, hpi, hmap⟩ := List.mem_filterMap.mp he
  unfold get_enabled_points at hpi
  obtain ⟨pd, hpd, hpe⟩ := List.mem_map.mp hpi
  have hpd2 := List.mem_filter.mp hpd
  cases ht : pi.mqttTopic with
  | none =>
    rw [ht] at hmap
    simp only [] at hmap
    exact absurd hmap (by simp)
  | some tp =>
    rw [ht] at hmap
    simp only [] at hmap
    by_cases htp : tp = ""
    · rw [if_neg (by simp [htp])] at hmap
      exact absurd hmap (by simp)
    · rw [if_pos htp] at hmap
      have he2 := Option.some.inj hmap
      refine ⟨pd, hpd2.1, hpd2.2, ?_, tp, ?_, htp, ?_⟩
      · rw [← he2, ← hpe]
      · rw [← hpe] at ht
        exact ht
      · rw [← he2]

/-- The override prefix concatenation is injective in the topic. -/
theorem override_append_inj (a b : String)
    (h : ("override/" ++ a : String) = "override/" ++ b) : a = b := by
  apply String.ext
  have hd := congrArg String.data h
  rw [String.data_append, String.data_append] at hd
  exact List.append_cancel_left hd

/-- A queued override went through the topic map and the isWritable
check. -/
theorem handle_override_queued (m : List (String × PointInfo)) (topic : String)
    (parsed : Option PyJson) (raw : String) (o : PendingOverride)
    (hq : handle_override_message m topic parsed raw = .queued o) :
    ∃ pt, dictGet m topic = some pt ∧ pt.isWritable = true ∧ o.point = pt := by
  unfold handle_override_message at hq
  cases hlk : dictGet m topic with
  | none =>
    rw [hlk] at hq
    exact absurd hq (by simp)
  | some pt =>
    rw [hlk] at hq
    simp only [] at hq
    by_cases hwr : pt.isWritable
    · refine ⟨pt, rfl, hwr, ?_⟩
      rw [if_neg (by simpa using hwr)] at hq
      cases parsed with
      | none =>
        by_cases hr : pyStrip raw ≠ ""
        · rw [if_pos hr] at hq
          injection hq with h
          rw [← h]
        · rw [if_neg hr] at hq
          exact absurd hq (by simp)
      | some pj =>
        cases pj with
        | jscalar v => exact absurd hq (by simp)
        | jdict value priority =>
          cases value with
          | none => exact absurd hq (by simp)
          | some v =>
            cases v with
            | null => exact absurd hq (by simp)
            | num q => injection hq with h; rw [← h]
            | str s => injection hq with h; rw [← h]
            | jbool b => injection hq with h; rw [← h]
    · rw [if_pos (by simpa using hwr)] at hq
      exact absurd hq (by simp)

/-- Outcome of one BACnet read attempt on the wire: a decoded value, a
timeout, one of the three BACnet failure PDUs, or any other exception.  The
per-attempt outcomes form an oracle indexed by attempt number. -/
inductive ReadOutcome where
  | success (v : JValue)
  | timeout
  | abortPDU
  | rejectPDU
  | errorPDU
  | otherExc
deriving DecidableEq, Repr

/-- Retry configuration of BACnetClient. -/
def max_retries : ℕ := 3

/-- Base per-attempt timeout of BACnetClient, in milliseconds. -/
def base_timeout : ℕ := 6000

/-- Per-attempt timeout with exponential backoff, as computed inside the
retry loop of read_property. -/
def attempt_timeout (attempt : ℕ) : ℕ :=
  if attempt > 0 then base_timeout * 2 ^ attempt else base_timeout

/-- The retry loop of BACnetClient.read_property: iterate attempts while
fuel remains, returning the first successful value together with the number
of attempts made.  Every non-success outcome, timeout or not, falls through
to the next iteration exactly as every except clause of the source does. -/
def read_loop (oracle : ℕ → ReadOutcome) : ℕ → ℕ → Option JValue × ℕ
  | i, 0 => (none, i)
  | i, fuel + 1 =>
    match oracle i with
    | .success v => (some v, i + 1)
    | _ => read_loop oracle (i + 1) fuel

/-- Translation of BACnetClient.read_property: a loop over
max_retries + 1 attempts. -/
def read_property (oracle : ℕ → ReadOutcome) : Option JValue × ℕ :=
  read_loop oracle 0 (max_retries + 1)

/-- Scheduler decision for one point in one tick of
PollingWorker.poll_and_publish. -/
structure PollStep where
  reads : Bool
  newLast : ℚ
deriving DecidableEq, Repr

/-- Translation of the per-point body of PollingWorker.poll_and_publish.
last is the point_last_poll entry (none on first appearance), current_time
the time.time() sample of this tick, read_ok whether the BACnet read
returned a value.  Floats are modelled as rationals; int() is truncation
toward zero. -/
def poll_point_step (last : Option ℚ) (current_time : ℚ) (poll_interval : ℤ)
    (read_ok : Bool) : PollStep :=
  let next_minute : ℤ := ratCeil (current_time / 60) * 60
  match last with
  | none =>
    { reads := false, newLast := ((next_minute - poll_interval : ℤ) : ℚ) }
  | some last_poll =>
    if current_time - last_poll < (poll_interval : ℚ) then
      { reads := false, newLast := last_poll }
    else
      let current_second : ℤ := pyTrunc current_time % 60
      if current_second % poll_interval ≥ 2 then
        { reads := false, newLast := last_poll }
      else if read_ok then
        { reads := true,
          newLast := ((ratFloor (current_time / (poll_interval : ℚ)) * poll_interval : ℤ) : ℚ) }
      else
        { reads := true, newLast := last_poll }

/-- Payload built by MQTTClient.publish_point_value (the wall-clock
timestamp field is elided). -/
structure PublishPayload where
  value : JValue
  tz : ℤ
  units : Option String
  quality : String
  dis : Option String
  haystackName : Option String
  objectType : String
  objectInstance : ℤ
deriving DecidableEq, Repr

/-- The leakage guard of publish_point_value: only string values are
examined, for the two marker substrings. -/
def leaky_string (v : JValue) : Bool :=
  match v with
  | .str s => hasSub "bacpypes3" s || hasSub "object at" s
  | _ => false

/-- The value-cleaning step of publish_point_value.  Python bool is a
subclass of int, so booleans take the isinstance(value, (int, float))
branch and become 0.0/1.0; the elif isinstance(value, bool) branch of the
source is dead. -/
def clean_value : JValue → JValue
  | .num q => .num q
  | .jbool b => .num (if b then 1 else 0)
  | .str s => .str s
  | .null => .null

/-- Translation of MQTTClient.publish_point_value followed by publish:
None values refused, leaky strings refused, otherwise the payload is
built and handed to the broker when connected. -/
def publish_point_value (value : Option JValue) (units : Option String)
    (dis : Option String) (haystack_name : Option String)
    (object_type : String) (object_instance : ℤ) (timezone_offset : ℤ)
    (connected : Bool) : Option PublishPayload :=
  match value with
  | none => none
  | some JValue.null => none
  | some v =>
    if leaky_string v then none
    else if connected then
      some { value := clean_value v, tz := timezone_offset, units := units,
             quality := "good", dis := dis, haystackName := haystack_name,
             objectType := object_type, objectInstance := object_instance }
    else none

/-- ratFloor agrees with the mathematical floor. -/
theorem ratFloor_eq (q : ℚ) : ratFloor q = ⌊q⌋ :=
  Rat.floor_def.symm

/-- ratCeil agrees with the mathematical ceiling. -/
theorem ratCeil_eq (q : ℚ) : ratCeil q = ⌈q⌉ := by
  rw [ratCeil, ratFloor_eq, Int.floor_neg, neg_neg]

/-- Python int() truncation agrees with the floor on non-negative
rationals. -/
theorem pyTrunc_eq_floor (q : ℚ) (h : 0 ≤ q) : pyTrunc q = ⌊q⌋ := by
  rw [pyTrunc, Int.tdiv_eq_ediv (Rat.num_nonneg.mpr h) (Int.natCast_nonneg q.den),
    Rat.floor_def]

/-- A satisfied startsWithChars check puts every needle character in the
hay. -/
theorem startsWithChars_subset (needle hay : List Char)
    (h : startsWithChars needle hay = true) : ∀ c ∈ needle, c ∈ hay := by
  induction needle generalizing hay with
  | nil => intro c hc; simp at hc
  | cons n ns ih =>
    cases hay with
    | nil => simp [startsWithChars] at h
    | cons d ds =>
      simp only [startsWithChars, Bool.and_eq_true, decide_eq_true_eq] at h
      obtain ⟨h1, h2⟩ := h
      intro c hc
      rcases List.mem_cons.mp hc with hcn | hc2
      · rw [hcn, h1]; exact List.mem_cons_self d ds
      · exact List.mem_cons_of_mem _ (ih ds h2 c hc2)

/-- A satisfied hasSubChars check puts every needle character in the
hay. -/
theorem hasSubChars_subset (needle hay : List Char)
    (h : hasSubChars needle hay = true) : ∀ c ∈ needle, c ∈ hay := by
  induction hay with
  | nil =>
    cases needle with
    | nil => intro c hc; simp at hc
    | cons n ns => simp [hasSubChars, startsWithChars] at h
  | cons d ds ih =>
    simp only [hasSubChars, Bool.or_eq_true] at h
    rcases h with h | h
    · exact startsWithChars_subset _ _ h
    · intro c hc
      exact List.mem_cons_of_mem _ (ih h c hc)

/-- Digit characters are digits. -/
theorem digitChar_isDigit (n : ℕ) (h : n < 10) : (digitChar n).isDigit = true := by
  interval_cases n <;> decide

/-- Every character emitted by natCharsAux is a digit. -/
theorem natCharsAux_digits (fuel : ℕ) : ∀ n, ∀ c ∈ natCharsAux fuel n,
    c.isDigit = true := by
  induction fuel with
  | zero => intro n c hc; simp [natCharsAux] at hc
  | succ f ih =>
    intro n c hc
    simp only [natCharsAux] at hc
    by_cases h : n < 10
    · rw [if_pos h] at hc
      simp at hc
      rw [hc]
      exact digitChar_isDigit n h
    · rw [if_neg h] at hc
      rcases List.mem_append.mp hc with h1 | h2
      · exact ih (n / 10) c h1
      · simp at h2
        rw [h2]
        exact digitChar_isDigit _ (Nat.mod_lt n (by norm_num))

/-- Every character of a rendered rational is a digit, a minus sign or the
separator. -/
theorem ratChars_charset (q : ℚ) :
    ∀ c ∈ ratChars q, c.isDigit = true ∨ c = '-' ∨ c = '/' := by
  intro c hc
  unfold ratChars at hc
  simp only [List.mem_append] at hc
  have hsign : c ∈ (if q < 0 then ['-'] else []) → c = '-' := by
    intro h
    by_cases hq : q < 0
    · rw [if_pos hq] at h; simpa using h
    · rw [if_neg hq] at h; simp at h
  have hden : c ∈ (if q.den = 1 then [] else '/' :: natChars q.den) →
      c.isDigit = true ∨ c = '/' := by
    intro h
    by_cases hd : q.den = 1
    · rw [if_pos hd] at h; simp at h
    · rw [if_neg hd] at h
      rcases List.mem_cons.mp h with hsl | hmem
      · right; exact hsl
      · left; exact natCharsAux_digits _ _ c hmem
  rcases hc with (h0 | hnat) | h3
  · right; left; exact hsign h0
  · left; exact natCharsAux_digits _ _ c hnat
  · rcases hden h3 with hd | hsl
    · left; exact hd
    · right; right; exact hsl

/-- The leakage-marker check of publish_point_value viewed over a whole
string value. -/
def badSub (s : String) : Bool :=
  hasSub "bacpypes3" s || hasSub "object at" s

/-- Needles containing the letter b never occur in a rendered rational. -/
theorem badSub_ratChars (q : ℚ) : badSub ⟨ratChars q⟩ = false := by
  have hb : 'b' ∉ ratChars q := by
    intro hmem
    rcases ratChars_charset q 'b' hmem with h | h | h
    · exact absurd h (by decide)
    · exact absurd h (by decide)
    · exact absurd h (by decide)
  have key : ∀ needle : String, 'b' ∈ needle.data →
      hasSub needle ⟨ratChars q⟩ = false := by
    intro needle hn
    by_contra hcon
    rw [Bool.not_eq_false] at hcon
    exact hb (hasSubChars_subset needle.data (ratChars q) hcon 'b' hn)
  rw [badSub, key "bacpypes3" (by decide), key "object at" (by decide)]
  rfl

/-- The retry loop steps past a failed attempt, whatever its kind. -/
theorem read_loop_step_fail (oracle : ℕ → ReadOutcome) (i f : ℕ)
    (hns : ∀ w, oracle i ≠ .success w) :
    read_loop oracle i (f + 1) = read_loop oracle (i + 1) f := by
  cases h : oracle i with
  | success v => exact absurd h (hns v)
  | timeout => simp [read_loop, h]
  | abortPDU => simp [read_loop, h]
  | rejectPDU => simp [read_loop, h]
  | errorPDU => simp [read_loop, h]
  | otherExc => simp [read_loop, h]

/-- The retry loop returns at a successful attempt. -/
theorem read_loop_step_success (oracle : ℕ → ReadOutcome) (i f : ℕ) (v : JValue)
    (hv : oracle i = .success v) :
    read_loop oracle i (f + 1) = (some v, i + 1) := by
  simp only [read_loop, hv]

/-- The attempt counter never exceeds the fuel. -/
theorem read_loop_le (oracle : ℕ → ReadOutcome) (fuel : ℕ) :
    ∀ i, (read_loop oracle i fuel).2 ≤ i + fuel := by
  induction fuel with
  | zero => intro i; simp [read_loop]
  | succ f ih =>
    intro i
    by_cases hs : ∃ w, oracle i = .success w
    · obtain ⟨w, hw⟩ := hs
      rw [read_loop_step_success oracle i f w hw]
      omega
    · have hns : ∀ w, oracle i ≠ .success w := fun w hw => hs ⟨w, hw⟩
      rw [read_loop_step_fail oracle i f hns]
      have := ih (i + 1)
      omega

/-- The retry loop fails exactly when no attempt within the fuel window
succeeds, independent of the kinds of the failures. -/
theorem read_loop_none_iff (oracle : ℕ → ReadOutcome) (fuel : ℕ) :
    ∀ i, ((read_loop oracle i fuel).1 = none ↔
      ∀ j < fuel, ∀ w, oracle (i + j) ≠ .success w) := by
  induction fuel with
  | zero => intro i; simp [read_loop]
  | succ f ih =>
    intro i
    by_cases hs : ∃ w, oracle i = .success w
    · obtain ⟨w, hw⟩ := hs
      rw [read_loop_step_success oracle i f w hw]
      constructor
      · intro hx; exact absurd hx (by simp)
      · intro hall
        exact absurd hw (by simpa using hall 0 (Nat.zero_lt_succ f) w)
    · have hns : ∀ w, oracle i ≠ .success w := fun w hw => hs ⟨w, hw⟩
      rw [read_loop_step_fail oracle i f hns, ih (i + 1)]
      constructor
      · intro hfor j hj w
        cases j with
        | zero => simpa using hns w
        | succ jj =>
          have := hfor jj (by omega) w
          rw [show i + (jj + 1) = i + 1 + jj by omega]
          exact this
      · intro hall j hj w
        have := hall (j + 1) (by omega) w
        rw [show i + (j + 1) = i + 1 + j by omega] at this
        exact this

/-- A returned value comes from the first successful attempt within the
fuel window. -/
theorem read_loop_some (oracle : ℕ → ReadOutcome) (fuel : ℕ) :
    ∀ i v, (read_loop oracle i fuel).1 = some v →
      ∃ j, j < fuel ∧ oracle (i + j) = .success v ∧
        ∀ k < j, ∀ w, oracle (i + k) ≠ .success w := by
  induction fuel with
  | zero => intro i v h; simp [read_loop] at h
  | succ f ih =>
    intro i v h
    by_cases hs : ∃ w, oracle i = .success w
    · obtain ⟨w, hw⟩ := hs
      rw [read_loop_step_success oracle i f w hw] at h
      simp at h
      refine ⟨0, Nat.zero_lt_succ f, by simpa [h] using hw, ?_⟩
      intro k hk
      omega
    · have hns : ∀ w, oracle i ≠ .success w := fun w hw => hs ⟨w, hw⟩
      rw [read_loop_step_fail oracle i f hns] at h
      obtain ⟨j, hj, hsucc, hpre⟩ := ih (i + 1) v h
      refine ⟨j + 1, by omega, ?_, ?_⟩
      · rw [show i + (j + 1) = i + 1 + j by omega]
        exact hsucc
      · intro k hk w
        cases k with
        | zero => simpa using hns w
        | succ kk =>
          have := hpre kk (by omega) w
          rw [show i + (kk + 1) = i + 1 + kk by omega]
          exact this

/-- Device fixture used by the concrete scenarios. -/
def ovDevice : Device :=
  { id := 1, deviceId := 259, deviceName := "Device_259",
    ipAddress := "10.0.0.5", port := 47808, enabled := true }

/-- A writable setpoint with both bounds set, topic
klcc/ahu/12/sp/temp/air/supply/435. -/
def ovPointBounds : Point :=
  { id := 10, deviceId := 1, objectType := "analog-value", objectInstance := 435,
    pointName := "SupplyTempSP", description := none,
    units := some "degreesCelsius", siteId := some "klcc",
    equipmentType := some "ahu", equipmentId := some "12",
    pointFunction := some "sp", quantity := some "temp", subject := some "air",
    location := some "supply", qualifier := none,
    haystackPointName := some "klcc.ahu.12.sp.temp.air.supply", dis := none,
    enabled := true, mqttPublish := true,
    mqttTopic := some "klcc/ahu/12/sp/temp/air/supply/435",
    pollInterval := 60, qos := 1, isReadable := true, isWritable := true,
    minPresValue := some 15, maxPresValue := some 30 }

def ovDb1 : List (Point × Device) := [(ovPointBounds, ovDevice)]

/-- A writable sensor point (position 4 of the haystack name is sensor,
not sp). -/
def ovPointSensor : Point :=
  { ovPointBounds with
    id := 11, objectInstance := 436,
    pointName := "SupplyTempSensor", pointFunction := some "sensor",
    haystackPointName := some "klcc.ahu.12.sensor.temp.air.supply",
    mqttTopic := some "klcc/ahu/12/sensor/temp/air/supply/436",
    minPresValue := none, maxPresValue := none }

def ovDb2 : List (Point × Device) := [(ovPointSensor, ovDevice)]

/-- A writable point with a short (3-part) haystack name. -/
def cxPointShort : Point :=
  { ovPointBounds with
    id := 12, objectInstance := 7, pointName := "ShortName",
    haystackPointName := some "a.b.c", mqttTopic := some "a/b/c/7",
    minPresValue := none, maxPresValue := none }

def shortDb : List (Point × Device) := [(cxPointShort, ovDevice)]

/-- A non-writable variant. -/
def nwPoint : Point :=
  { cxPointShort with
    id := 13, objectInstance := 8, pointName := "ReadOnly",
    isWritable := false }

def nwDb : List (Point × Device) := [(nwPoint, ovDevice)]

/-- A writable point excluded from the pollable set (mqttPublish off) but
with a derivable topic. -/
def nonPollPoint : Point :=
  { ovPointBounds with
    id := 14, objectInstance := 9, pointName := "Unpolled",
    mqttPublish := false, mqttTopic := some "x/9" }

def npDb : List (Point × Device) := [(nonPollPoint, ovDevice)]

/-- A well-formed in-range write command against ovPointBounds. -/
def cxCmd1 : Command :=
  { jobId := "job-1", deviceId := some 259, objectType := some "analog-value",
    objectInstance := some 435, value := .num 20, priority := 8,
    release := false }

/-- The write request cxCmd1 produces. -/
def cxReq1 : WriteReq :=
  { deviceIp := "10.0.0.5", devicePort := 47808, objectType := "analog-value",
    objectInstance := 435, value := .num 20, priority := 8 }

/-- A well-formed write command against the short-haystack point. -/
def shortCmd : Command :=
  { jobId := "job-short", deviceId := some 259,
    objectType := some "analog-value", objectInstance := some 7,
    value := .num 20, priority := 8, release := false }

/-- A well-formed write command against the non-writable point. -/
def nwCmd : Command :=
  { jobId := "job-nw", deviceId := some 259, objectType := some "analog-value",
    objectInstance := some 8, value := .num 20, priority := 8,
    release := false }

/-- C1 counterexample: an override of 40 on a point bounded by
[15, 30] is queued by the override handler (which never reads the bounds)
and then written successfully by process_pending_overrides, so a
successful write does carry a value outside the configured bounds. -/
theorem C1_counterexample :
    handle_override_message (build_topic_to_point_map ovDb1)
        "override/klcc/ahu/12/sp/temp/air/supply/435"
        (some (.jdict (some (.num 40)) none)) "" =
      .queued ⟨point_info ovPointBounds ovDevice, .num 40, 8⟩ ∧
    ((process_pending_overrides [⟨point_info ovPointBounds ovDevice, .num 40, 8⟩]
        true).writes.map (fun w => (w.req.value, w.success))) =
      [(.num 40, true)] ∧
    ovPointBounds.minPresValue = some 15 ∧
    ovPointBounds.maxPresValue = some 30 ∧
    ¬ ((40 : ℚ) ≤ 30) := by
  refine ⟨by decide, by decide, rfl, rfl, by norm_num⟩

/-- C1 amended: on the explicit write-command path a non-release command
with a numeric value only reaches the BACnet engine when the value lies
within the configured bounds of the resolved point; the override path
performs no such check (see the counterexample). -/
theorem C1_amended_bounds_explicit_only
    (db : List (Point × Device)) (command : Command) (netOk : Bool)
    (w : WriteReq) (point : Point) (device : Device) (v : ℚ)
    (hw : (execute_command db command netOk).writeIssued = some w)
    (hres : (execute_command db command netOk).resolved = some (point, device))
    (hrel : command.release = false)
    (hv : pyFloat command.value = some v) :
    (∀ lo, point.minPresValue = some lo → lo ≤ v) ∧
    (∀ hi, point.maxPresValue = some hi → v ≤ hi) := by
  have hnil := execute_command_write_verrs_nil db command netOk w point device hw hres
  exact verr_range_bounds point command v hrel hv
    (validation_nil_split point command hnil).2.2.2

/-- C1 witness: the amended bound statement evaluated on the in-range
command job-1. -/
theorem C1_witness :
    (execute_command ovDb1 cxCmd1 true).writeIssued = some cxReq1 ∧
    (∀ lo, ovPointBounds.minPresValue = some lo → lo ≤ (20 : ℚ)) ∧
    (∀ hi, ovPointBounds.maxPresValue = some hi → (20 : ℚ) ≤ hi) := by
  refine ⟨by decide, ?_⟩
  exact C1_amended_bounds_explicit_only ovDb1 cxCmd1 true cxReq1 ovPointBounds
    ovDevice 20 (by decide) (by decide) (by decide) (by decide)

/-- C2 counterexample: an override addressed to a writable point whose
haystack position 4 is sensor is queued and executed; the override path
never performs the setpoint check. -/
theorem C2_counterexample :
    (pySplit '.' "klcc.ahu.12.sensor.temp.air.supply").getD 3 "" = "sensor" ∧
    handle_override_message (build_topic_to_point_map ovDb2)
        "override/klcc/ahu/12/sensor/temp/air/supply/436"
        (some (.jdict (some (.num 22)) none)) "" =
      .queued ⟨point_info ovPointSensor ovDevice, .num 22, 8⟩ ∧
    ((process_pending_overrides [⟨point_info ovPointSensor ovDevice, .num 22, 8⟩]
        true).writes.map (fun w => w.success)) = [true] := by
  refine ⟨by decide, by decide, by decide⟩

/-- C2 amended: every accepted write targets a writable point on both
paths, but the sp position-4 restriction is enforced only on the explicit
write-command path; the override handler checks isWritable alone. -/
theorem C2_amended_write_gating (db : List (Point × Device)) (command : Command)
    (netOk : Bool) (w : WriteReq) (point : Point) (device : Device)
    (m : List (String × PointInfo)) (topic : String) (parsed : Option PyJson)
    (raw : String) (o : PendingOverride) :
    ((execute_command db command netOk).writeIssued = some w →
     (execute_command db command netOk).resolved = some (point, device) →
     point.isWritable = true ∧
       (∀ hn, point.haystackPointName = some hn → hn ≠ "" →
         (pySplit '.' hn).length ≥ 4 → (pySplit '.' hn).getD 3 "" = "sp")) ∧
    (handle_override_message m topic parsed raw = .queued o →
      o.point.isWritable = true) := by
  constructor
  · intro hw hres
    have hnil := execute_command_write_verrs_nil db command netOk w point device hw hres
    obtain ⟨hh, hwrit, _, _⟩ := validation_nil_split point command hnil
    exact ⟨verr_writable_nil point hwrit, verr_haystack_sp point hh⟩
  · intro hq
    obtain ⟨pt, _, hwr, hop⟩ := handle_override_queued m topic parsed raw o hq
    rw [hop]
    exact hwr

/-- C2 witness: both conjuncts of the amended gating statement evaluated on
concrete inputs. -/
theorem C2_witness :
    ovPointBounds.isWritable = true ∧
    (⟨point_info ovPointBounds ovDevice, .num 22, 8⟩ :
        PendingOverride).point.isWritable = true := by
  obtain ⟨h1, h2⟩ := C2_amended_write_gating ovDb1 cxCmd1 true cxReq1
    ovPointBounds ovDevice (build_topic_to_point_map ovDb1)
    "override/klcc/ahu/12/sp/temp/air/supply/435"
    (some (.jdict (some (.num 22)) none)) ""
    ⟨point_info ovPointBounds ovDevice, .num 22, 8⟩
  exact ⟨(h1 (by decide) (by decide)).1, h2 (by decide)⟩

/-- History characterization of execute_command: exactly one WriteHistory
row when a write is issued, none otherwise. -/
theorem execute_command_history (db : List (Point × Device)) (command : Command)
    (netOk : Bool) :
    ((execute_command db command netOk).writeIssued.isSome = true →
      (execute_command db command netOk).history.length = 1) ∧
    ((execute_command db command netOk).writeIssued = none →
      (execute_command db command netOk).history = []) := by
  simp only [execute_command]
  by_cases hmiss : missing_fields command
  · rw [if_pos hmiss]
    exact ⟨by intro h; simp at h, fun _ => rfl⟩
  · rw [if_neg hmiss]
    cases hlk : lookupPoint db (command.deviceId.getD 0) (command.objectType.getD "")
        (command.objectInstance.getD 0) with
    | none =>
      exact ⟨by intro h; simp at h, fun _ => rfl⟩
    | some pd =>
      obtain ⟨p0, d0⟩ := pd
      simp only [execute_resolved]
      by_cases hnil : validation_errors_of p0 command = []
      · rw [if_neg (not_not_intro hnil)]
        exact ⟨fun _ => rfl, by intro h; simp at h⟩
      · rw [if_pos hnil]
        exact ⟨by intro h; simp at h, fun _ => rfl⟩

/-- C3 counterexample: an override-driven write is executed (one write
issued) yet zero WriteHistory rows are recorded. -/
theorem C3_counterexample :
    ((process_pending_overrides
        [⟨point_info ovPointBounds ovDevice, .num 22, 8⟩] true).writes.length = 1) ∧
    (process_pending_overrides
        [⟨point_info ovPointBounds ovDevice, .num 22, 8⟩] true).history = [] := by
  exact ⟨by decide, rfl⟩

/-- C3 amended: every executed explicit write command records exactly one
WriteHistory row (success or failure), and a command that issues no write
records none; override-driven writes record no WriteHistory row at all. -/
theorem C3_amended_history_explicit_only (db : List (Point × Device))
    (command : Command) (netOk : Bool) (pending : List PendingOverride)
    (netOk2 : Bool) :
    ((execute_command db command netOk).writeIssued.isSome = true →
      (execute_command db command netOk).history.length = 1) ∧
    ((execute_command db command netOk).writeIssued = none →
      (execute_command db command netOk).history = []) ∧
    (process_pending_overrides pending netOk2).history = [] :=
  ⟨(execute_command_history db command netOk).1,
   (execute_command_history db command netOk).2, rfl⟩

/-- C3 witness: the amended history statement evaluated on job-1 and on an
empty override queue. -/
theorem C3_witness :
    (execute_command ovDb1 cxCmd1 true).history.length = 1 ∧
    (process_pending_overrides [] true).history = [] :=
  ⟨(C3_amended_history_explicit_only ovDb1 cxCmd1 true [] true).1 (by decide),
   (C3_amended_history_explicit_only ovDb1 cxCmd1 true [] true).2.2⟩

/-- C4: the payload bytes 22.5 are valid JSON, json.loads yields a bare
float, and data.get then raises AttributeError, so the override is dropped
with nothing queued — while a payload that is not valid JSON (here: on)
does reach the raw fallback and is queued with priority 8.  The in-source
comment (try raw value, just a number or string) documents the intent that
bare numbers be accepted. -/
theorem C4_bare_scalar_dropped :
    handle_override_message (build_topic_to_point_map ovDb1)
        "override/klcc/ahu/12/sp/temp/air/supply/435"
        (some (.jscalar (.num (45 / 2)))) "22.5" = .raisedAttributeError ∧
    handle_override_message (build_topic_to_point_map ovDb1)
        "override/klcc/ahu/12/sp/temp/air/supply/435" none "on" =
      .queued ⟨point_info ovPointBounds ovDevice, .str "on", 8⟩ := by
  exact ⟨by decide, by decide⟩

/-- Every code the resolved-point validation can emit. -/
theorem verr_codes (point : Point) (command : Command) :
    ∀ e ∈ validation_errors_of point command,
      e.code = ECode.INVALID_POINT_FUNCTION ∨ e.code = ECode.POINT_NOT_WRITABLE ∨
      e.code = ECode.INVALID_PRIORITY ∨ e.code = ECode.VALUE_BELOW_MINIMUM ∨
      e.code = ECode.VALUE_ABOVE_MAXIMUM ∨ e.code = ECode.INVALID_VALUE_TYPE := by
  intro e he
  simp only [validation_errors_of, verr_haystack, verr_writable, verr_priority,
    verr_range, List.mem_append, or_assoc] at he
  rcases he with h | h | h | h
  · split at h
    · split at h
      · split at h
        · simp at h
          rw [h]
          tauto
        · simp at h
      · simp at h
    · simp at h
  · split at h
    · simp at h
    · simp at h
      rw [h]
      tauto
  · split at h
    · simp at h
    · simp at h
      rw [h]
      tauto
  · split at h
    · split at h
      · rw [List.mem_append] at h
        rcases h with h | h
        · split at h
          · split at h
            · simp at h
              rw [h]
              tauto
            · simp at h
          · simp at h
        · split at h
          · split at h
            · simp at h
              rw [h]
              tauto
            · simp at h
          · simp at h
      · simp at h
        rw [h]
        tauto
    · simp at h

/-- C5 counterexample: a write command against a point whose non-empty
haystack name has only 3 dotted parts passes validation with no errors at
all and the BACnet write is issued; no INVALID_HAYSTACK_FORMAT rejection
exists in this handler. -/
theorem C5_counterexample :
    cxPointShort.haystackPointName = some "a.b.c" ∧
    (pySplit '.' "a.b.c").length = 3 ∧
    (execute_command shortDb shortCmd true).result.validationErrors = [] ∧
    (execute_command shortDb shortCmd true).writeIssued.isSome = true := by
  exact ⟨rfl, by decide, by decide, by decide⟩

/-- C5 amended: execute_command never emits INVALID_HAYSTACK_FORMAT — a
point with a short haystack name skips the position-4 check and, when the
other validations pass, is written.  The code exists only in the legacy
copy src/worker/mqtt_publisher.py, not in the handler under proof. -/
theorem C5_amended_no_haystack_format_check (db : List (Point × Device))
    (command : Command) (netOk : Bool) :
    ∀ e ∈ (execute_command db command netOk).result.validationErrors,
      e.code ≠ ECode.INVALID_HAYSTACK_FORMAT := by
  intro e he
  simp only [execute_command] at he
  by_cases hmiss : missing_fields command
  · rw [if_pos hmiss] at he
    simp [create_error_result] at he
    rw [he]
    simp
  · rw [if_neg hmiss] at he
    cases hlk : lookupPoint db (command.deviceId.getD 0) (command.objectType.getD "")
        (command.objectInstance.getD 0) with
    | none =>
      rw [hlk] at he
      simp only [] at he
      simp [create_error_result] at he
      rw [he]
      simp
    | some pd =>
      obtain ⟨p0, d0⟩ := pd
      rw [hlk] at he
      simp only [execute_resolved] at he
      by_cases hnil : validation_errors_of p0 command = []
      · rw [if_neg (not_not_intro hnil)] at he
        simp at he
      · rw [if_pos hnil] at he
        simp [create_error_result] at he
        rcases verr_codes p0 command e he with h | h | h | h | h | h <;>
          (rw [h]; simp)

/-- C5 witness: a concrete validation error produced by the handler, whose
code is not INVALID_HAYSTACK_FORMAT. -/
theorem C5_witness :
    (⟨"isWritable", ECode.POINT_NOT_WRITABLE⟩ : VErr) ∈
      (execute_command nwDb nwCmd true).result.validationErrors ∧
    (⟨"isWritable", ECode.POINT_NOT_WRITABLE⟩ : VErr).code ≠
      ECode.INVALID_HAYSTACK_FORMAT :=
  ⟨by decide,
   C5_amended_no_haystack_format_check nwDb nwCmd true _ (by decide)⟩

/-- Oracle for the C6 counterexample: two abort PDUs, then success. -/
def c6oracle : ℕ → ReadOutcome :=
  fun i => if i < 2 then .abortPDU else .success (.num 5)

/-- C6 counterexample: after two consecutive non-timeout BACnet failures
the engine does not surface a failure after its single retry — it keeps
going, makes a third attempt and returns its value. -/
theorem C6_counterexample :
    c6oracle 0 = .abortPDU ∧ c6oracle 1 = .abortPDU ∧
    read_property c6oracle = (some (.num 5), 3) ∧ (3 : ℕ) ≠ 2 := by
  exact ⟨rfl, rfl, by decide, by decide⟩

/-- C6 amended: all failure kinds — timeout, abort, reject, error PDU or
any other exception — are retried uniformly: at most max_retries + 1 = 4
attempts, the value of the first successful attempt is returned, and the
read fails only when all four attempts fail. -/
theorem C6_amended_uniform_retry (oracle : ℕ → ReadOutcome) :
    (read_property oracle).2 ≤ max_retries + 1 ∧
    ((read_property oracle).1 = none ↔
      ∀ j < max_retries + 1, ∀ w, oracle j ≠ .success w) ∧
    (∀ v, (read_property oracle).1 = some v →
      ∃ j, j < max_retries + 1 ∧ oracle j = .success v ∧
        ∀ k < j, ∀ w, oracle k ≠ .success w) := by
  refine ⟨?_, ?_, ?_⟩
  · have := read_loop_le oracle (max_retries + 1) 0
    simpa [read_property] using this
  · have := read_loop_none_iff oracle (max_retries + 1) 0
    simpa [read_property] using this
  · intro v h
    have := read_loop_some oracle (max_retries + 1) 0 v h
    simpa using this

/-- C6 witness: the amended retry statement evaluated on an all-timeout
oracle. -/
theorem C6_witness :
    (read_property (fun _ => ReadOutcome.timeout)).1 = none ∧
    (read_property (fun _ => ReadOutcome.timeout)).2 ≤ max_retries + 1 :=
  ⟨((C6_amended_uniform_retry (fun _ => .timeout)).2.1).mpr
      (fun _ _ _ h => ReadOutcome.noConfusion h),
   (C6_amended_uniform_retry (fun _ => .timeout)).1⟩

/-- C8: the per-point scheduler decision follows the spec arithmetic: a
first-seen point gets lastPoll = ceil(now/60)*60 - pollInterval and is not
read; a known point is read exactly when now - lastPoll is at least the
interval and (floor(now) mod 60) mod pollInterval < 2; a successful read
snaps lastPoll to floor(now/pollInterval)*pollInterval. -/
theorem C8_scheduler_deadline_arithmetic (now : ℚ) (interval : ℤ) (ok : Bool)
    (h0 : 0 ≤ now) (_h1 : 1 ≤ interval) :
    poll_point_step none now interval ok =
      { reads := false, newLast := ((⌈now / 60⌉ * 60 - interval : ℤ) : ℚ) } ∧
    (∀ lp, ((poll_point_step (some lp) now interval ok).reads = true ↔
      ((interval : ℚ) ≤ now - lp ∧ (⌊now⌋ % 60) % interval < 2))) ∧
    (∀ lp, (poll_point_step (some lp) now interval ok).reads = true → ok = true →
      (poll_point_step (some lp) now interval ok).newLast =
        ((⌊now / (interval : ℚ)⌋ * interval : ℤ) : ℚ)) := by
  refine ⟨?_, ?_, ?_⟩
  · simp only [poll_point_step]
    rw [ratCeil_eq]
  · intro lp
    simp only [poll_point_step]
    by_cases hdue : now - lp < (interval : ℚ)
    · rw [if_pos hdue]
      refine iff_of_false (by simp) ?_
      rintro ⟨hge, _⟩
      exact absurd hdue (not_lt.mpr hge)
    · rw [if_neg hdue]
      by_cases halign : pyTrunc now % 60 % interval ≥ 2
      · rw [if_pos halign]
        refine iff_of_false (by simp) ?_
        rintro ⟨_, hlt⟩
        rw [← pyTrunc_eq_floor now h0] at hlt
        omega
      · rw [if_neg halign]
        refine iff_of_true ?_ ⟨not_lt.mp hdue, ?_⟩
        · cases ok <;> simp
        · rw [← pyTrunc_eq_floor now h0]
          omega
  · intro lp hreads hok
    subst hok
    simp only [poll_point_step] at hreads ⊢
    by_cases hdue : now - lp < (interval : ℚ)
    · rw [if_pos hdue] at hreads
      exact absurd hreads (by simp)
    · rw [if_neg hdue] at hreads ⊢
      by_cases halign : pyTrunc now % 60 % interval ≥ 2
      · rw [if_pos halign] at hreads
        exact absurd hreads (by simp)
      · rw [if_neg halign]
        simp only [if_true]
        rw [ratFloor_eq]

/-- C8 witness: the deadline arithmetic evaluated at now = 120 s with a
60-second interval. -/
theorem C8_witness :
    poll_point_step none 120 60 true = { reads := false, newLast := 60 } ∧
    (poll_point_step (some 60) 120 60 true).reads = true ∧
    (poll_point_step (some 60) 120 60 true).newLast = 120 := by
  obtain ⟨h1, h2, h3⟩ := C8_scheduler_deadline_arithmetic 120 60 true
    (by norm_num) (by norm_num)
  refine ⟨?_, ?_, ?_⟩
  · rw [h1]
    norm_num
  · exact (h2 60).mpr ⟨by norm_num, by norm_num⟩
  · rw [h3 60 ((h2 60).mpr ⟨by norm_num, by norm_num⟩) rfl]
    norm_num

/-- A published payload carries the cleaned value. -/
theorem publish_some_value (v : JValue) (pl : PublishPayload)
    (units dis hn : Option String) (ot : String) (oi tz : ℤ) (connected : Bool)
    (h : publish_point_value (some v) units dis hn ot oi tz connected = some pl) :
    pl.value = clean_value v := by
  cases v with
  | null => exact absurd h (by simp [publish_point_value])
  | num q =>
    simp only [publish_point_value] at h
    split at h
    · exact absurd h (by simp)
    · split at h
      · exact (congrArg PublishPayload.value (Option.some.inj h)).symm
      · exact absurd h (by simp)
  | str s =>
    simp only [publish_point_value] at h
    split at h
    · exact absurd h (by simp)
    · split at h
      · exact (congrArg PublishPayload.value (Option.some.inj h)).symm
      · exact absurd h (by simp)
  | jbool b =>
    simp only [publish_point_value] at h
    split at h
    · exact absurd h (by simp)
    · split at h
      · exact (congrArg PublishPayload.value (Option.some.inj h)).symm
      · exact absurd h (by simp)

/-- A published value passed the leakage guard. -/
theorem publish_some_not_leaky (v : JValue) (pl : PublishPayload)
    (units dis hn : Option String) (ot : String) (oi tz : ℤ) (connected : Bool)
    (h : publish_point_value (some v) units dis hn ot oi tz connected = some pl) :
    leaky_string v = false := by
  cases v with
  | null => exact absurd h (by simp [publish_point_value])
  | num q => rfl
  | jbool b => rfl
  | str s =>
    simp only [publish_point_value] at h
    by_cases hl : leaky_string (.str s)
    · rw [if_pos hl] at h
      exact absurd h (by simp)
    · simpa using hl

/-- C9: a None reading is never published; a value whose Python string
form contains bacpypes3 or object at is rejected and nothing is published;
and every payload that is published carries a value free of both
markers. -/
theorem C9_no_leak_publish (v : JValue) (units dis hn : Option String)
    (ot : String) (oi tz : ℤ) (connected : Bool) :
    publish_point_value none units dis hn ot oi tz connected = none ∧
    (badSub (pyStr v) = true →
      publish_point_value (some v) units dis hn ot oi tz connected = none) ∧
    (∀ pl, publish_point_value (some v) units dis hn ot oi tz connected = some pl →
      badSub (pyStr pl.value) = false) := by
  refine ⟨rfl, ?_, ?_⟩
  · intro hbad
    cases v with
    | null => rfl
    | num q =>
      rw [show pyStr (.num q) = (⟨ratChars q⟩ : String) from rfl,
        badSub_ratChars q] at hbad
      exact absurd hbad (by simp)
    | jbool b =>
      cases b
      · exact absurd hbad (by decide)
      · exact absurd hbad (by decide)
    | str s =>
      simp only [publish_point_value]
      rw [if_pos ?_]
      exact hbad
  · intro pl hpl
    rw [publish_some_value v pl units dis hn ot oi tz connected hpl]
    cases v with
    | null => exact absurd hpl (by simp [publish_point_value])
    | num q =>
      rw [show pyStr (clean_value (.num q)) = (⟨ratChars q⟩ : String) from rfl]
      exact badSub_ratChars q
    | jbool b =>
      cases b
      · exact badSub_ratChars 0
      · exact badSub_ratChars 1
    | str s =>
      have := publish_some_not_leaky (.str s) pl units dis hn ot oi tz connected hpl
      simpa [leaky_string, badSub, pyStr, clean_value] using this

/-- C9 witness: the rejection branch evaluated on a leaky string value. -/
theorem C9_witness :
    publish_point_value (some (.str "bacpypes3 object at 0x7f")) none none none
      "analog-input" 1 0 true = none :=
  (C9_no_leak_publish (.str "bacpypes3 object at 0x7f") none none none
    "analog-input" 1 0 true).2.1 (by decide)

/-- C10: the override topic map draws only on the pollable set, so an
override whose topic matches no pollable point resolves to nothing and is
dropped with no write queued and no reply sent. -/
theorem C10_override_topics_only_pollable (db : List (Point × Device))
    (t : String) (parsed : Option PyJson) (raw : String)
    (h : ∀ pd ∈ db, pollable pd = true → pd.1.mqttTopic ≠ some t) :
    (∀ e ∈ build_topic_to_point_map db, ∃ pd, pd ∈ db ∧ pollable pd = true ∧
        e.2 = point_info pd.1 pd.2) ∧
    handle_override_message (build_topic_to_point_map db) ("override/" ++ t)
        parsed raw = .dropNoPoint := by
  constructor
  · intro e he
    obtain ⟨pd, h1, h2, h3, _⟩ := mem_topic_map db e he
    exact ⟨pd, h1, h2, h3⟩
  · have hnone : dictGet (build_topic_to_point_map db) ("override/" ++ t) = none := by
      apply dictGet_eq_none
      intro e he hk
      obtain ⟨pd, hmem, hpol, _, tp, htp, _, hkey⟩ := mem_topic_map db e he
      rw [hkey] at hk
      have heq := override_append_inj tp t hk
      exact h pd hmem hpol (heq ▸ htp)
    unfold handle_override_message
    rw [hnone]

/-- C10 witness: an override addressed to the topic of a point outside the
pollable set (mqttPublish disabled) is dropped. -/
theorem C10_witness :
    handle_override_message (build_topic_to_point_map npDb) ("override/" ++ "x/9")
      (some (.jdict (some (.num 1)) none)) "" = .dropNoPoint :=
  (C10_override_topics_only_pollable npDb "x/9"
    (some (.jdict (some (.num 1)) none)) "" (by decide)).2

end BacPipes
